import Mathlib

/-!
Verification development for the dopamine-detox habit tracker.

The repository layer (`src/data/repository.ts`) keeps a normalized
`ActivityEntry` table plus denormalized `DayLog` and `WeekSummary` caches,
recomputed on every entry mutation.  This file gives a shallow embedding of
that layer and settles the stated properties about it.

Modelling conventions:
* Calendar dates (`YYYY-MM-DD` strings in TypeScript) are embedded as a
  `Date` structure of year/month/day.  Lexicographic comparison of those
  components coincides with string comparison of zero-padded `YYYY-MM-DD`
  strings, which is the order Dexie's `between` uses on `dayId` keys.
  JavaScript `Date` arithmetic is modelled through a days-since-epoch
  encoding (the standard civil-calendar conversion); we assume the host
  runs in UTC so that `new Date('YYYY-MM-DD')` denotes that same calendar
  date.
* `uuidv4()` id generation and `new Date().toISOString()` timestamps are
  modelled by a monotone counter `nextId` carried in the database state:
  each `addEntry` consumes one fresh value for both the id and the
  creation timestamp, mirroring their roles (unique key, monotone
  tie-break).
* JavaScript numbers are embedded as `Int` where the code only ever adds
  and compares (minutes, caps, counts) and as `Rat` where the code divides
  (`capUsagePct`).
* `Record<string, number>` objects built by `obj[k] = (obj[k] || 0) + v`
  are embedded as association lists with a `bump` operation.
* Dexie tables are embedded as lists of rows; `put` replaces the row with
  the same primary key, `add` fails if the key is present.
-/

namespace DopamineDetox

/-! ## Calendar dates -/

/-- A calendar date, the embedding of a `YYYY-MM-DD` string. -/
structure Date where
  year : Int
  month : Int
  day : Int
deriving DecidableEq, Repr

/-- Days since 1970-01-01 of a civil date (standard civil-from-days
algorithm, as used by JavaScript `Date` internals). -/
def daysFromCivil (y m d : Int) : Int :=
  let y1 : Int := if m ≤ 2 then y - 1 else y
  let era : Int := Int.fdiv y1 400
  let yoe : Int := y1 - era * 400
  let doy : Int := (Int.ediv (153 * (m + (if m > 2 then -3 else 9)) + 2) 5) + d - 1
  let doe : Int := yoe * 365 + Int.ediv yoe 4 - Int.ediv yoe 100 + doy
  era * 146097 + doe - 719468

/-- Civil date of a days-since-epoch count (inverse of `daysFromCivil`). -/
def civilFromDays (z0 : Int) : Date :=
  let z : Int := z0 + 719468
  let era : Int := Int.fdiv z 146097
  let doe : Int := z - era * 146097
  let yoe : Int := Int.ediv (doe - Int.ediv doe 1460 + Int.ediv doe 36524 - Int.ediv doe 146096) 365
  let y : Int := yoe + era * 400
  let doy : Int := doe - (365 * yoe + Int.ediv yoe 4 - Int.ediv yoe 100)
  let mp : Int := Int.ediv (5 * doy + 2) 153
  let d : Int := doy - Int.ediv (153 * mp + 2) 5 + 1
  let m : Int := mp + (if mp < 10 then 3 else -9)
  ⟨if m ≤ 2 then y + 1 else y, m, d⟩

/-- Days since epoch of a `Date`. -/
def Date.toDays (d : Date) : Int := daysFromCivil d.year d.month d.day

/-- ISO day of week (Monday = 1 .. Sunday = 7) of a days-since-epoch count;
1970-01-01 was a Thursday. -/
def isoDow (z : Int) : Int := Int.emod (z + 3) 7 + 1

/-- The Monday on or before the given day (date-fns `startOfWeek` with
`weekStartsOn: 1`). -/
def startOfWeekMonday (z : Int) : Int := z - (isoDow z - 1)

/-- ISO-8601 week number of a days-since-epoch count (date-fns
`getISOWeek`): the week number, within the ISO week-year, of the week
containing the day.  Computed from the Thursday of that week. -/
def isoWeekOfDays (z : Int) : Int :=
  let thursday : Int := z - isoDow z + 4
  let y : Int := (civilFromDays thursday).year
  let jan1 : Int := daysFromCivil y 1 1
  Int.ediv (thursday - jan1) 7 + 1

/-- Lexicographic order on dates: for valid dates this is exactly string
comparison of the zero-padded `YYYY-MM-DD` forms (the order used by
Dexie `between` range scans on `dayId`). -/
def dateLe (a b : Date) : Bool :=
  a.year < b.year ∨
    (a.year = b.year ∧
      (a.month < b.month ∨ (a.month = b.month ∧ a.day ≤ b.day)))

/-- The embedding of a `YYYY-Www` week-id string (year and two-digit week
number are recoverable from the string and vice versa). -/
structure WeekId where
  year : Int
  week : Int
deriving DecidableEq, Repr

/-! ## Data model (`src/types/index.ts`) -/

inductive AllowanceMode where
  | absolute
  | percentOfLeisure
deriving DecidableEq, Repr

/-- `UserSettings`, restricted to the fields the repository layer reads
(`weeklyAllowanceMinutes`, `allowanceMode`, `weeklyLeisureMinutes`);
presentation-only fields (checklist template, category lists, theme, …)
do not influence the verified operations and are omitted. -/
structure UserSettings where
  weeklyAllowanceMinutes : Int
  allowanceMode : AllowanceMode
  weeklyLeisureMinutes : Option Int
deriving DecidableEq, Repr

/-- One `{itemId, checked}` pair of a `DayLog.checklist`. -/
structure ChecklistMark where
  itemId : String
  checked : Bool
deriving DecidableEq, Repr

structure ActivityEntry where
  id : Nat
  dayId : Date
  minutes : Int
  category : String
  triggers : List String
  note : Option String
  replacement : Option String
  createdAt : Nat
deriving DecidableEq, Repr

structure DayLog where
  id : Date
  checklist : List ChecklistMark
  reflections : Option String
  totalFastMinutes : Int
  replacementUsage : List (String × Int)
deriving DecidableEq, Repr

structure WeekSummary where
  id : WeekId
  startDate : Date
  endDate : Date
  totalMinutes : Int
  capMinutes : Int
  capUsagePct : Rat
  overCap : Bool
  categoriesBreakdown : List (String × Int)
  replacementBreakdown : List (String × Int)
  streakActive : Bool
deriving DecidableEq, Repr

/-- The four Dexie tables plus the fresh-id/timestamp counter. -/
structure AppDB where
  settings : Option UserSettings
  days : List DayLog
  entries : List ActivityEntry
  weeks : List WeekSummary
  nextId : Nat
deriving DecidableEq, Repr

/-- `Omit⟨ActivityEntry, 'id' | 'createdAt'⟩`: the argument of `addEntry`.
(When callers pass a full entry — as the import path does — the spread
`{...entryData, id: uuidv4(), createdAt: …}` discards the caller's id and
timestamp, so only these fields matter.) -/
structure NewEntryData where
  dayId : Date
  minutes : Int
  category : String
  triggers : List String
  note : Option String
  replacement : Option String
deriving DecidableEq, Repr

/-- `Partial⟨ActivityEntry⟩`: each field optionally present.  For the
optional TS fields `note`/`replacement` a present field may itself set the
value to `undefined`, hence `Option (Option String)`. -/
structure EntryPatch where
  id : Option Nat := none
  dayId : Option Date := none
  minutes : Option Int := none
  category : Option String := none
  triggers : Option (List String) := none
  note : Option (Option String) := none
  replacement : Option (Option String) := none
  createdAt : Option Nat := none
deriving DecidableEq, Repr

/-- Shallow merge `{...existing, ...patch}`. -/
def applyPatch (e : ActivityEntry) (p : EntryPatch) : ActivityEntry :=
  { id := p.id.getD e.id
    dayId := p.dayId.getD e.dayId
    minutes := p.minutes.getD e.minutes
    category := p.category.getD e.category
    triggers := p.triggers.getD e.triggers
    note := p.note.getD e.note
    replacement := p.replacement.getD e.replacement
    createdAt := p.createdAt.getD e.createdAt }

/-! ## Association-list helpers for `Record⟨string, number⟩` objects -/

/-- `obj[k] = (obj[k] || 0) + v` on an association list. -/
def bump (k : String) (v : Int) : List (String × Int) → List (String × Int)
  | [] => [(k, v)]
  | (k1, v1) :: rest =>
      if k1 = k then (k1, v1 + v) :: rest else (k1, v1) :: bump k v rest

/-- `obj[k] || 0`: lookup with default `0`. -/
def lookupD : List (String × Int) → String → Int
  | [], _ => 0
  | p :: t, k => if p.1 = k then p.2 else lookupD t k

/-- Sum of the values of a `Record⟨string, number⟩`. -/
def sumVals (l : List (String × Int)) : Int := (l.map (fun p => p.2)).sum

/-! ## Repository (`src/data/repository.ts`, class `DexieRepository`) -/

/-- `DEFAULT_SETTINGS` restricted to the repository-relevant fields:
`weeklyAllowanceMinutes: 240`, `allowanceMode: 'absolute'`,
`weeklyLeisureMinutes` absent. -/
def DEFAULT_SETTINGS : UserSettings :=
  { weeklyAllowanceMinutes := 240
    allowanceMode := .absolute
    weeklyLeisureMinutes := none }

/-- `getSettings`: return the singleton row, lazily writing
`DEFAULT_SETTINGS` when absent. -/
def getSettings (s : AppDB) : AppDB × UserSettings :=
  match s.settings with
  | none => ({ s with settings := some DEFAULT_SETTINGS }, DEFAULT_SETTINGS)
  | some st => (s, st)

/-- `Partial⟨UserSettings⟩` over the modelled fields. -/
structure SettingsPatch where
  weeklyAllowanceMinutes : Option Int := none
  allowanceMode : Option AllowanceMode := none
  weeklyLeisureMinutes : Option (Option Int) := none
deriving DecidableEq, Repr

/-- `saveSettings`: merge the patch into the current settings
(`updatedAt` bookkeeping carries no modelled information). -/
def saveSettings (s : AppDB) (patch : SettingsPatch) : AppDB :=
  let cur := getSettings s
  let st := cur.2
  let updated : UserSettings :=
    { weeklyAllowanceMinutes := patch.weeklyAllowanceMinutes.getD st.weeklyAllowanceMinutes
      allowanceMode := patch.allowanceMode.getD st.allowanceMode
      weeklyLeisureMinutes := patch.weeklyLeisureMinutes.getD st.weeklyLeisureMinutes }
  { cur.1 with settings := some updated }

/-- `db.days.put`: replace the row keyed by `day.id`, or insert it. -/
def upsertDay (s : AppDB) (day : DayLog) : AppDB :=
  { s with days := day :: s.days.filter (fun d => d.id ≠ day.id) }

/-- `db.days.get`. -/
def getDay (s : AppDB) (id : Date) : Option DayLog :=
  s.days.find? (fun d => d.id = id)

/-- `db.entries.put`: replace the row keyed by `e.id`, or insert it. -/
def putEntryRow (t : List ActivityEntry) (e : ActivityEntry) : List ActivityEntry :=
  e :: t.filter (fun x => x.id ≠ e.id)

/-- `listEntriesByDay`: entries of one day, `sortBy('createdAt')`. -/
def listEntriesByDay (s : AppDB) (dayId : Date) : List ActivityEntry :=
  ((s.entries.filter (fun e => e.dayId = dayId)).insertionSort
    (fun a b => a.createdAt ≤ b.createdAt))

/-- `listEntriesInRange`: entries with `dayId` between the bounds
(inclusive, string order), `sortBy('createdAt')`. -/
def listEntriesInRange (s : AppDB) (startDate endDate : Date) : List ActivityEntry :=
  ((s.entries.filter (fun e => dateLe startDate e.dayId ∧ dateLe e.dayId endDate)).insertionSort
    (fun a b => a.createdAt ≤ b.createdAt))

/-- `getWeekIdFromDate`: calendar year (date-fns `getYear`) paired with the
ISO-8601 week number (date-fns `getISOWeek`) — note the year is the civil
year of the date, not the ISO week-year. -/
def getWeekIdFromDate (d : Date) : WeekId :=
  ⟨d.year, isoWeekOfDays d.toDays⟩

/-- `parseWeekId`: `new Date(year, 0, 1 + (week-1)*7)` then the Monday and
Sunday of that day's (Monday-started) week. -/
def parseWeekId (w : WeekId) : Date × Date :=
  let z : Int := daysFromCivil w.year 1 1 + (w.week - 1) * 7
  let monday : Int := startOfWeekMonday z
  (civilFromDays monday, civilFromDays (monday + 6))

/-- The `entries.forEach` body tallying replacement usage in both
recompute operations: `if (entry.replacement)` (JavaScript falsiness, so
the empty string counts as absent) then bump its count. -/
def replFoldStep (acc : List (String × Int)) (e : ActivityEntry) : List (String × Int) :=
  match e.replacement with
  | some r => if r = "" then acc else bump r 1 acc
  | none => acc

/-- `recomputeDayTotals`: rescan the day's entries, rebuild the totals and
write back the full `DayLog`, preserving checklist and reflections of an
existing row (`existingDay?.checklist || []`, `existingDay?.reflections`). -/
def recomputeDayTotals (s : AppDB) (dayId : Date) : AppDB :=
  let entries := listEntriesByDay s dayId
  let totalFastMinutes := entries.foldl (fun sum e => sum + e.minutes) 0
  let replacementUsage := entries.foldl replFoldStep []
  let existingDay := getDay s dayId
  let dayLog : DayLog :=
    { id := dayId
      checklist := (existingDay.map (fun d => d.checklist)).getD []
      reflections := existingDay.bind (fun d => d.reflections)
      totalFastMinutes := totalFastMinutes
      replacementUsage := replacementUsage }
  upsertDay s dayLog

/-- JavaScript `Math.round`: round half toward positive infinity. -/
def jsRound (q : Rat) : Int := Int.floor (q + 1/2)

/-- `recomputeWeek`: rebuild the summary of one week id from the entries
whose `dayId` lies in `parseWeekId`'s range and from current settings.
`settings.weeklyLeisureMinutes || 2800` treats both an absent and a zero
value as 2800 (JavaScript falsiness). -/
def recomputeWeek (s0 : AppDB) (weekId : WeekId) : AppDB × WeekSummary :=
  let r := parseWeekId weekId
  let entries := listEntriesInRange s0 r.1 r.2
  let gs := getSettings s0
  let s := gs.1
  let settings := gs.2
  let totalMinutes := entries.foldl (fun sum e => sum + e.minutes) 0
  let capMinutes : Int :=
    match settings.allowanceMode with
    | .absolute => settings.weeklyAllowanceMinutes
    | .percentOfLeisure =>
        let leisure : Int :=
          match settings.weeklyLeisureMinutes with
          | some v => if v = 0 then 2800 else v
          | none => 2800
        jsRound ((leisure : Rat) * ((settings.weeklyAllowanceMinutes : Rat) / 100))
  let capUsagePct : Rat :=
    if capMinutes > 0 then ((totalMinutes : Rat) / (capMinutes : Rat)) * 100 else 0
  let categoriesBreakdown := entries.foldl
    (fun acc e => bump e.category e.minutes acc) []
  let replacementBreakdown := entries.foldl replFoldStep []
  let weekSummary : WeekSummary :=
    { id := weekId
      startDate := r.1
      endDate := r.2
      totalMinutes := totalMinutes
      capMinutes := capMinutes
      capUsagePct := capUsagePct
      overCap := capUsagePct > 100
      categoriesBreakdown := categoriesBreakdown
      replacementBreakdown := replacementBreakdown
      streakActive := capUsagePct ≤ 100 }
  ({ s with weeks := weekSummary :: s.weeks.filter (fun w => w.id ≠ weekId) },
   weekSummary)

/-- `db.weeks.get`. -/
def getWeek (s : AppDB) (weekId : WeekId) : Option WeekSummary :=
  s.weeks.find? (fun w => w.id = weekId)

/-- `getWeekSummary`: cached row if present, else compute and store. -/
def getWeekSummary (s : AppDB) (weekId : WeekId) : AppDB × WeekSummary :=
  match getWeek s weekId with
  | some existing => (s, existing)
  | none => recomputeWeek s weekId

/-- The recompute sequence every entry mutation runs for an affected day:
`recomputeDayTotals(dayId)` followed by
`recomputeWeek(getWeekIdFromDate(dayId))`. -/
def recomputeDayAndWeek (s : AppDB) (dayId : Date) : AppDB :=
  (recomputeWeek (recomputeDayTotals s dayId) (getWeekIdFromDate dayId)).1

/-- `addEntry`: build the row with a fresh id and creation timestamp,
`db.entries.add` it (error on key conflict), then recompute the day's
totals and the containing week. -/
def addEntry (s : AppDB) (entryData : NewEntryData) :
    Except String (AppDB × ActivityEntry) :=
  let entry : ActivityEntry :=
    { id := s.nextId
      dayId := entryData.dayId
      minutes := entryData.minutes
      category := entryData.category
      triggers := entryData.triggers
      note := entryData.note
      replacement := entryData.replacement
      createdAt := s.nextId }
  if s.entries.any (fun e => e.id = entry.id) then
    .error "ConstraintError"
  else
    let s1 : AppDB := { s with entries := entry :: s.entries, nextId := s.nextId + 1 }
    .ok (recomputeDayAndWeek s1 entry.dayId, entry)

/-- `updateEntry`: throw when the id is absent; otherwise `put` the shallow
merge and recompute the affected day(s) and their weeks (the old day, plus
the patch's day when `patch.dayId` is set and differs). -/
def updateEntry (s : AppDB) (id : Nat) (patch : EntryPatch) :
    Except String AppDB :=
  match s.entries.find? (fun e => e.id = id) with
  | none => .error "Entry not found"
  | some existing =>
    let updated := applyPatch existing patch
    let s1 : AppDB := { s with entries := putEntryRow s.entries updated }
    let affectedDays : List Date :=
      match patch.dayId with
      | some d => if d ≠ existing.dayId then [existing.dayId, d] else [existing.dayId]
      | none => [existing.dayId]
    .ok (affectedDays.foldl recomputeDayAndWeek s1)

/-- `deleteEntry`: silently return when the id is absent; otherwise delete
the row and recompute its former day and week. -/
def deleteEntry (s : AppDB) (id : Nat) : AppDB :=
  match s.entries.find? (fun e => e.id = id) with
  | none => s
  | some existing =>
    let s1 : AppDB := { s with entries := s.entries.filter (fun e => e.id ≠ id) }
    recomputeDayAndWeek s1 existing.dayId

/-! ## Store-layer checklist toggle (`src/store/index.ts`, `updateDayChecklist`) -/

/-- `updateDayChecklist(dayId, itemId, checked)`: rebuild the `DayLog` from
the store's in-memory `currentDay` (drop any mark for `itemId`, append the
new mark, carry over reflections and the denormalized totals) and
`upsertDay` it.  `currentDay` is the zustand-cached day, passed here
explicitly. -/
def updateDayChecklist (s : AppDB) (currentDay : Option DayLog) (dayId : Date)
    (itemId : String) (checked : Bool) : AppDB × DayLog :=
  let existingChecklist := (currentDay.map (fun d => d.checklist)).getD []
  let updatedChecklist :=
    (existingChecklist.filter (fun item => item.itemId ≠ itemId)) ++
      [⟨itemId, checked⟩]
  let updatedDay : DayLog :=
    { id := dayId
      checklist := updatedChecklist
      reflections := currentDay.bind (fun d => d.reflections)
      totalFastMinutes := (currentDay.map (fun d => d.totalFastMinutes)).getD 0
      replacementUsage := (currentDay.map (fun d => d.replacementUsage)).getD [] }
  (upsertDay s updatedDay, updatedDay)

/-! ## Export/import (`src/components/Layout.tsx`) -/

def SCHEMA_VERSION : Nat := 1

/-- The `ExportData` snapshot (settings restricted to the modelled
fields). -/
structure ExportData where
  schemaVersion : Nat
  settings : UserSettings
  days : List DayLog
  entries : List ActivityEntry
  weeks : List WeekSummary
deriving DecidableEq, Repr

/-- A full `UserSettings` viewed as the `Partial` patch `saveSettings`
receives from the import path. -/
def fullSettingsPatch (st : UserSettings) : SettingsPatch :=
  { weeklyAllowanceMinutes := some st.weeklyAllowanceMinutes
    allowanceMode := some st.allowanceMode
    weeklyLeisureMinutes := some st.weeklyLeisureMinutes }

/-- The entry fields `addEntry` actually uses from an imported row (the
spread discards `id`/`createdAt`). -/
def toNewEntryData (e : ActivityEntry) : NewEntryData :=
  { dayId := e.dayId
    minutes := e.minutes
    category := e.category
    triggers := e.triggers
    note := e.note
    replacement := e.replacement }

/-- First-occurrence deduplication, the iteration order of
`new Set(data.weeks.map(w => w.id))`. -/
def dedupWeekIds : List WeekId → List WeekId
  | [] => []
  | w :: rest => w :: (dedupWeekIds rest).filter (fun x => x ≠ w)

/-- `importFromJSON`: abort on schema-version mismatch; merge settings;
`upsertDay` each snapshot day directly; re-add each snapshot entry through
`addEntry`, swallowing any insertion error (the `try/catch` whose comment
says it skips already-existing entries); then recompute each week id
mentioned by the snapshot. -/
def importFromJSON (s : AppDB) (data : ExportData) : Except String AppDB :=
  if data.schemaVersion ≠ SCHEMA_VERSION then
    .error "Unsupported schema version"
  else
    let s1 := saveSettings s (fullSettingsPatch data.settings)
    let s2 := data.days.foldl upsertDay s1
    let s3 := data.entries.foldl
      (fun acc e =>
        match addEntry acc (toNewEntryData e) with
        | .ok r => r.1
        | .error _ => acc) s2
    let weekIds := dedupWeekIds (data.weeks.map (fun w => w.id))
    let s4 := weekIds.foldl (fun acc w => (recomputeWeek acc w).1) s3
    .ok s4

/-! ## Claim-side derived quantities -/

/-- Sum of `minutes` over all entry rows whose `dayId` is `d` (the
source-of-truth aggregate the `DayLog` cache must match). -/
def sumDay (l : List ActivityEntry) (d : Date) : Int :=
  ((l.filter (fun e => e.dayId = d)).map (fun e => e.minutes)).sum

/-- Number of entry rows of day `d` using replacement category `c`. -/
def countRepl (l : List ActivityEntry) (d : Date) (c : String) : Nat :=
  ((l.filter (fun e => e.dayId = d)).filter (fun e => e.replacement = some c)).length

/-- Sum of `minutes` over entry rows with `dayId` in the inclusive range. -/
def sumRange (l : List ActivityEntry) (startDate endDate : Date) : Int :=
  ((l.filter (fun e => dateLe startDate e.dayId ∧ dateLe e.dayId endDate)).map
    (fun e => e.minutes)).sum

/-- Stored day total, read through the cache (`0` when the row is absent). -/
def dayTotal (s : AppDB) (d : Date) : Int :=
  ((getDay s d).map (fun dl => dl.totalFastMinutes)).getD 0

/-- Stored per-replacement count of a day (`0` when absent). -/
def dayReplCount (s : AppDB) (d : Date) (c : String) : Int :=
  ((getDay s d).map (fun dl => lookupD dl.replacementUsage c)).getD 0

/-- Stored checklist of a day (`[]` when the row is absent). -/
def dayChecklist (s : AppDB) (d : Date) : List ChecklistMark :=
  ((getDay s d).map (fun dl => dl.checklist)).getD []

/-- Stored reflections of a day (`none` when the row is absent). -/
def dayReflections (s : AppDB) (d : Date) : Option String :=
  (getDay s d).bind (fun dl => dl.reflections)

/-- The `DayLog` cache row of `d` agrees with the entry table: the row
exists, its `totalFastMinutes` is the sum of minutes over `d`'s entry
rows, and for every nonempty replacement category its stored count is the
number of `d`'s rows using it. -/
def DayConsistent (s : AppDB) (d : Date) : Prop :=
  (getDay s d).isSome = true ∧
  dayTotal s d = sumDay s.entries d ∧
  ∀ c : String, c ≠ "" → dayReplCount s d c = (countRepl s.entries d c : Int)

/-- Primary keys of the entry table are pairwise distinct. -/
def uniqueIds (l : List ActivityEntry) : Prop :=
  (l.map (fun e => e.id)).Nodup

/-- Stored week total, read through the cache (`0` when absent). -/
def weekTotal (s : AppDB) (w : WeekId) : Int :=
  ((getWeek s w).map (fun ws => ws.totalMinutes)).getD 0

/-! ## Concrete states used by witnesses and counterexamples -/

/-- A fresh database with default settings (the state after first
`getSettings`). -/
def wS0 : AppDB :=
  { settings := some DEFAULT_SETTINGS, days := [], entries := [], weeks := [], nextId := 0 }

/-- A 30-minute scrolling entry on Monday 2025-01-06 with replacement
"reading". -/
def wData : NewEntryData :=
  { dayId := ⟨2025, 1, 6⟩, minutes := 30, category := "scrolling", triggers := []
    note := none, replacement := some "reading" }

def wFallbackEntry : ActivityEntry :=
  { id := 0, dayId := ⟨2025, 1, 6⟩, minutes := 0, category := "", triggers := []
    note := none, replacement := none, createdAt := 0 }

/-- The result of adding `wData` to the fresh database. -/
def wAdded : AppDB × ActivityEntry :=
  match addEntry wS0 wData with
  | .ok r => r
  | .error _ => (wS0, wFallbackEntry)

def wS1 : AppDB := wAdded.1

def wE1 : ActivityEntry := wAdded.2

/-- Move the entry to Tuesday 2025-01-14 (a different ISO week). -/
def movePatch : EntryPatch := { dayId := some ⟨2025, 1, 14⟩ }

def wS2 : AppDB :=
  match updateEntry wS1 0 movePatch with
  | .ok r => r
  | .error _ => wS1

/-- Move the entry to 2025-01-07 while also changing its minutes. -/
def movePatchBad : EntryPatch := { dayId := some ⟨2025, 1, 7⟩, minutes := some 50 }

def wS2bad : AppDB :=
  match updateEntry wS1 0 movePatchBad with
  | .ok r => r
  | .error _ => wS1

/-- A patch that sets the (supposedly immutable) primary key. -/
def idPatch : EntryPatch := { id := some 7 }

/-- A patch that only changes the category. -/
def catPatch : EntryPatch := { category := some "gaming" }

def wS2cat : AppDB :=
  match updateEntry wS1 0 catPatch with
  | .ok r => r
  | .error _ => wS1

def wS2id : AppDB :=
  match updateEntry wS1 0 idPatch with
  | .ok r => r
  | .error _ => wS1

/-- An entry payload with negative minutes. -/
def negData : NewEntryData :=
  { dayId := ⟨2025, 1, 6⟩, minutes := -5, category := "scrolling", triggers := []
    note := none, replacement := none }

/-- Percent-of-leisure settings with `weeklyLeisureMinutes` set to `0`. -/
def c5S : AppDB :=
  { settings := some
      { weeklyAllowanceMinutes := 10, allowanceMode := .percentOfLeisure
        weeklyLeisureMinutes := some 0 }
    days := [], entries := [], weeks := [], nextId := 0 }

/-- Percent-of-leisure settings with a nonzero `weeklyLeisureMinutes`. -/
def c5Sgood : AppDB :=
  { settings := some
      { weeklyAllowanceMinutes := 10, allowanceMode := .percentOfLeisure
        weeklyLeisureMinutes := some 2800 }
    days := [], entries := [], weeks := [], nextId := 0 }

/-- A snapshot with one entry, as exported data. -/
def c6Snap : ExportData :=
  { schemaVersion := 1
    settings := DEFAULT_SETTINGS
    days := []
    entries := [{ id := 99, dayId := ⟨2025, 1, 6⟩, minutes := 30, category := "scrolling"
                  triggers := [], note := none, replacement := none, createdAt := 5 }]
    weeks := [] }

def c6Once : AppDB :=
  match importFromJSON wS0 c6Snap with
  | .ok r => r
  | .error _ => wS0

def c6Twice : AppDB :=
  match importFromJSON c6Once c6Snap with
  | .ok r => r
  | .error _ => c6Once

/-- The stored day log of 2025-01-06 in `wS1`. -/
def wDayLog : DayLog :=
  match getDay wS1 ⟨2025, 1, 6⟩ with
  | some dl => dl
  | none => { id := ⟨2025, 1, 6⟩, checklist := [], reflections := none
              totalFastMinutes := 0, replacementUsage := [] }

/-! ## General list lemmas -/

lemma find?_filter_of_imp {α : Type} (p q : α → Bool) (l : List α)
    (h : ∀ x, p x = true → q x = true) :
    (l.filter q).find? p = l.find? p := by
  induction l with
  | nil => rfl
  | cons a t ih =>
    by_cases hq : q a = true
    · rw [List.filter_cons_of_pos hq]
      by_cases hp : p a = true
      · rw [List.find?_cons_of_pos _ hp, List.find?_cons_of_pos _ hp]
      · rw [List.find?_cons_of_neg _ hp, List.find?_cons_of_neg _ hp, ih]
    · have hp : ¬ p a = true := fun hpa => hq (h a hpa)
      rw [List.filter_cons_of_neg hq, List.find?_cons_of_neg _ hp, ih]

lemma filter_ne_id_filter_id (l : List ActivityEntry) (i : Nat) :
    (l.filter (fun x => x.id ≠ i)).filter (fun x => x.id = i) = [] := by
  rw [List.filter_eq_nil_iff]
  intro a ha
  have h1 := List.of_mem_filter ha
  simp only [decide_eq_true_eq] at h1 ⊢
  simpa using h1

/-! ## Lemmas on `bump` and the record folds -/

lemma lookupD_nil (k : String) : lookupD [] k = 0 := rfl

lemma lookupD_bump (l : List (String × Int)) (k : String) (v : Int) :
    lookupD (bump k v l) k = lookupD l k + v := by
  induction l with
  | nil => simp [bump, lookupD]
  | cons p t ih =>
    obtain ⟨k1, v1⟩ := p
    by_cases h : k1 = k
    · simp [bump, h, lookupD]
    · simp [bump, h, lookupD, ih]

lemma lookupD_bump_ne (l : List (String × Int)) (k k1 : String) (v : Int)
    (h : k1 ≠ k) : lookupD (bump k v l) k1 = lookupD l k1 := by
  induction l with
  | nil =>
      have hk : ¬ k = k1 := fun hk => h hk.symm
      simp [bump, lookupD, hk]
  | cons p t ih =>
    obtain ⟨k2, v2⟩ := p
    by_cases h2 : k2 = k
    · subst h2
      have hk : ¬ k2 = k1 := fun hk => h hk.symm
      simp [bump, lookupD, hk]
    · by_cases h3 : k2 = k1
      · simp [bump, h2, lookupD, h3, h]
      · simp [bump, h2, lookupD, h3, ih]

lemma sumVals_bump (l : List (String × Int)) (k : String) (v : Int) :
    sumVals (bump k v l) = sumVals l + v := by
  induction l with
  | nil => simp [bump, sumVals]
  | cons p t ih =>
    obtain ⟨k1, v1⟩ := p
    by_cases h : k1 = k
    · simp only [bump, if_pos h, sumVals, List.map_cons, List.sum_cons]
      ring
    · simp only [bump, if_neg h, sumVals, List.map_cons, List.sum_cons] at ih ⊢
      rw [ih]
      ring

lemma foldl_add_minutes (l : List ActivityEntry) (a : Int) :
    l.foldl (fun sum e => sum + e.minutes) a = a + (l.map (fun e => e.minutes)).sum := by
  induction l generalizing a with
  | nil => simp
  | cons x t ih => simp [List.foldl_cons, ih, add_assoc]

lemma lookupD_replFold (l : List ActivityEntry) (acc : List (String × Int))
    (c : String) (hc : c ≠ "") :
    lookupD (l.foldl replFoldStep acc) c
      = lookupD acc c + ((l.filter (fun e => e.replacement = some c)).length : Int) := by
  induction l generalizing acc with
  | nil => simp
  | cons e t ih =>
    rw [List.foldl_cons]
    cases he : e.replacement with
    | none =>
        rw [List.filter_cons_of_neg (by simp [he])]
        simp only [replFoldStep, he]
        exact ih acc
    | some r =>
      by_cases hr : r = ""
      · subst hr
        rw [List.filter_cons_of_neg (by simp [he]; exact fun h => hc h.symm)]
        simp only [replFoldStep, he, if_pos rfl]
        exact ih acc
      · by_cases hrc : r = c
        · subst hrc
          rw [List.filter_cons_of_pos (by simp [he])]
          simp only [replFoldStep, he, if_neg hr, List.length_cons]
          rw [ih (bump r 1 acc), lookupD_bump]
          push_cast
          ring
        · rw [List.filter_cons_of_neg (by simp [he]; exact fun h => hrc h)]
          simp only [replFoldStep, he, if_neg hr]
          rw [ih (bump r 1 acc), lookupD_bump_ne _ _ _ _ (fun h => hrc h.symm)]

lemma sumVals_catFold (l : List ActivityEntry) (acc : List (String × Int)) :
    sumVals (l.foldl (fun acc e => bump e.category e.minutes acc) acc)
      = sumVals acc + (l.map (fun e => e.minutes)).sum := by
  induction l generalizing acc with
  | nil => simp
  | cons e t ih =>
    rw [List.foldl_cons, ih, sumVals_bump, List.map_cons, List.sum_cons]
    ring

/-! ## Lemmas on `sumDay` -/

lemma sumDay_cons (a : ActivityEntry) (t : List ActivityEntry) (d : Date) :
    sumDay (a :: t) d = (if a.dayId = d then a.minutes else 0) + sumDay t d := by
  by_cases h : a.dayId = d
  · rw [sumDay, List.filter_cons_of_pos (by simpa using h), List.map_cons, List.sum_cons,
      if_pos h]
    rfl
  · rw [sumDay, List.filter_cons_of_neg (by simpa using h), if_neg h, zero_add]
    rfl

lemma sumDay_filter_ne (l : List ActivityEntry) (i : Nat) (e : ActivityEntry)
    (hu : uniqueIds l) (hf : l.find? (fun x => x.id = i) = some e) (d : Date) :
    sumDay (l.filter (fun x => x.id ≠ i)) d
      = sumDay l d - (if e.dayId = d then e.minutes else 0) := by
  induction l with
  | nil => simp at hf
  | cons a t ih =>
    rw [uniqueIds, List.map_cons, List.nodup_cons] at hu
    by_cases ha : a.id = i
    · rw [List.find?_cons_of_pos _ (by simpa using ha)] at hf
      have hae : a = e := by simpa using hf
      subst hae
      rw [List.filter_cons_of_neg (by simpa using ha)]
      have ht : t.filter (fun x => x.id ≠ i) = t := by
        rw [List.filter_eq_self]
        intro x hx
        simp only [decide_eq_true_eq]
        intro hxi
        exact hu.1 (List.mem_map.mpr ⟨x, hx, by rw [hxi, ha]⟩)
      rw [ht, sumDay_cons]
      ring
    · rw [List.find?_cons_of_neg _ (by simpa using ha)] at hf
      rw [List.filter_cons_of_pos (by simpa using ha), sumDay_cons, sumDay_cons,
        ih hu.2 hf]
      ring

/-! ## Frame lemmas for the repository operations -/

@[simp] lemma getSettings_entries (s : AppDB) : (getSettings s).1.entries = s.entries := by
  cases h : s.settings <;> simp [getSettings, h]

@[simp] lemma getSettings_days (s : AppDB) : (getSettings s).1.days = s.days := by
  cases h : s.settings <;> simp [getSettings, h]

@[simp] lemma getSettings_weeks (s : AppDB) : (getSettings s).1.weeks = s.weeks := by
  cases h : s.settings <;> simp [getSettings, h]

@[simp] lemma getSettings_nextId (s : AppDB) : (getSettings s).1.nextId = s.nextId := by
  cases h : s.settings <;> simp [getSettings, h]

@[simp] lemma upsertDay_entries (s : AppDB) (day : DayLog) :
    (upsertDay s day).entries = s.entries := rfl

@[simp] lemma upsertDay_weeks (s : AppDB) (day : DayLog) :
    (upsertDay s day).weeks = s.weeks := rfl

@[simp] lemma upsertDay_settings (s : AppDB) (day : DayLog) :
    (upsertDay s day).settings = s.settings := rfl

@[simp] lemma upsertDay_nextId (s : AppDB) (day : DayLog) :
    (upsertDay s day).nextId = s.nextId := rfl

lemma getDay_upsertDay_self (s : AppDB) (day : DayLog) :
    getDay (upsertDay s day) day.id = some day := by
  simp [getDay, upsertDay]

lemma getDay_upsertDay_other (s : AppDB) (day : DayLog) (i : Date) (h : i ≠ day.id) :
    getDay (upsertDay s day) i = getDay s i := by
  unfold getDay upsertDay
  rw [List.find?_cons_of_neg _ (by simpa using fun hx => h hx.symm)]
  exact find?_filter_of_imp _ _ _ (fun x hx => by
    simp only [decide_eq_true_eq] at hx ⊢
    rw [hx]
    exact h)

@[simp] lemma recomputeDayTotals_entries (s : AppDB) (d : Date) :
    (recomputeDayTotals s d).entries = s.entries := rfl

@[simp] lemma recomputeDayTotals_weeks (s : AppDB) (d : Date) :
    (recomputeDayTotals s d).weeks = s.weeks := rfl

@[simp] lemma recomputeDayTotals_settings (s : AppDB) (d : Date) :
    (recomputeDayTotals s d).settings = s.settings := rfl

@[simp] lemma recomputeDayTotals_nextId (s : AppDB) (d : Date) :
    (recomputeDayTotals s d).nextId = s.nextId := rfl

lemma getDay_recomputeDayTotals_self (s : AppDB) (d : Date) :
    getDay (recomputeDayTotals s d) d = some
      { id := d
        checklist := dayChecklist s d
        reflections := dayReflections s d
        totalFastMinutes := (listEntriesByDay s d).foldl (fun sum e => sum + e.minutes) 0
        replacementUsage := (listEntriesByDay s d).foldl replFoldStep [] } :=
  getDay_upsertDay_self s _

lemma getDay_recomputeDayTotals_other (s : AppDB) (d i : Date) (h : i ≠ d) :
    getDay (recomputeDayTotals s d) i = getDay s i :=
  getDay_upsertDay_other s _ i h

lemma recomputeWeek_fst (s : AppDB) (w : WeekId) :
    (recomputeWeek s w).1 =
      { (getSettings s).1 with
        weeks := (recomputeWeek s w).2 :: (getSettings s).1.weeks.filter (fun x => x.id ≠ w) } := rfl

@[simp] lemma recomputeWeek_entries (s : AppDB) (w : WeekId) :
    ((recomputeWeek s w).1).entries = s.entries := by
  rw [recomputeWeek_fst]
  simp

@[simp] lemma recomputeWeek_days (s : AppDB) (w : WeekId) :
    ((recomputeWeek s w).1).days = s.days := by
  rw [recomputeWeek_fst]
  simp

@[simp] lemma recomputeWeek_nextId (s : AppDB) (w : WeekId) :
    ((recomputeWeek s w).1).nextId = s.nextId := by
  rw [recomputeWeek_fst]
  simp

@[simp] lemma recomputeWeek_id (s : AppDB) (w : WeekId) :
    ((recomputeWeek s w).2).id = w := rfl

lemma recomputeWeek_weeks (s : AppDB) (w : WeekId) :
    ((recomputeWeek s w).1).weeks
      = (recomputeWeek s w).2 :: s.weeks.filter (fun x => x.id ≠ w) := by
  rw [recomputeWeek_fst]
  show _ :: (getSettings s).1.weeks.filter _ = _
  rw [getSettings_weeks]

lemma getWeek_recomputeWeek_self (s : AppDB) (w : WeekId) :
    getWeek ((recomputeWeek s w).1) w = some (recomputeWeek s w).2 := by
  rw [getWeek, recomputeWeek_weeks]
  exact List.find?_cons_of_pos _ (by simp)

lemma getWeek_recomputeWeek_other (s : AppDB) (w w1 : WeekId) (h : w1 ≠ w) :
    getWeek ((recomputeWeek s w).1) w1 = getWeek s w1 := by
  rw [getWeek, recomputeWeek_weeks]
  have hne : ¬ (((recomputeWeek s w).2).id = w1) := by
    rw [recomputeWeek_id]
    exact fun hx => h hx.symm
  rw [List.find?_cons_of_neg _ (by simpa using hne)]
  exact find?_filter_of_imp _ _ _ (fun x hx => by
    simp only [decide_eq_true_eq] at hx ⊢
    rw [hx]
    exact h)

/-! ## Characterisation of the recompute operations -/

lemma listEntriesByDay_perm (s : AppDB) (d : Date) :
    (listEntriesByDay s d).Perm (s.entries.filter (fun e => e.dayId = d)) :=
  List.perm_insertionSort _ _

lemma listEntriesInRange_perm (s : AppDB) (a b : Date) :
    (listEntriesInRange s a b).Perm
      (s.entries.filter (fun e => dateLe a e.dayId ∧ dateLe e.dayId b)) :=
  List.perm_insertionSort _ _

lemma dayTotal_recomputeDayTotals (s : AppDB) (d : Date) :
    dayTotal (recomputeDayTotals s d) d = sumDay s.entries d := by
  rw [dayTotal, getDay_recomputeDayTotals_self]
  simp only [Option.map_some', Option.getD_some]
  rw [foldl_add_minutes, zero_add, sumDay]
  exact ((listEntriesByDay_perm s d).map (fun e => e.minutes)).sum_eq

lemma dayReplCount_recomputeDayTotals (s : AppDB) (d : Date) (c : String) (hc : c ≠ "") :
    dayReplCount (recomputeDayTotals s d) d c = (countRepl s.entries d c : Int) := by
  rw [dayReplCount, getDay_recomputeDayTotals_self]
  simp only [Option.map_some', Option.getD_some]
  rw [lookupD_replFold _ _ _ hc, lookupD_nil, zero_add, countRepl]
  congr 1
  exact ((listEntriesByDay_perm s d).filter (fun e => e.replacement = some c)).length_eq

lemma dayChecklist_recomputeDayTotals (s : AppDB) (d0 d : Date) :
    dayChecklist (recomputeDayTotals s d0) d = dayChecklist s d := by
  by_cases h : d = d0
  · subst h
    rw [dayChecklist, getDay_recomputeDayTotals_self]
    rfl
  · rw [dayChecklist, getDay_recomputeDayTotals_other s d0 d h, dayChecklist]

lemma dayReflections_recomputeDayTotals (s : AppDB) (d0 d : Date) :
    dayReflections (recomputeDayTotals s d0) d = dayReflections s d := by
  by_cases h : d = d0
  · subst h
    rw [dayReflections, getDay_recomputeDayTotals_self]
    rfl
  · rw [dayReflections, getDay_recomputeDayTotals_other s d0 d h, dayReflections]

lemma DayConsistent_recomputeDayTotals_self (s : AppDB) (d : Date) :
    DayConsistent (recomputeDayTotals s d) d := by
  refine ⟨?_, ?_, ?_⟩
  · rw [getDay_recomputeDayTotals_self]
    rfl
  · rw [dayTotal_recomputeDayTotals, recomputeDayTotals_entries]
  · intro c hc
    rw [dayReplCount_recomputeDayTotals s d c hc, recomputeDayTotals_entries]

lemma DayConsistent_recomputeDayTotals_other (s : AppDB) (d0 d : Date) (h : d ≠ d0)
    (hdc : DayConsistent s d) : DayConsistent (recomputeDayTotals s d0) d := by
  obtain ⟨h1, h2, h3⟩ := hdc
  refine ⟨?_, ?_, ?_⟩
  · rw [getDay_recomputeDayTotals_other s d0 d h]
    exact h1
  · rw [dayTotal, getDay_recomputeDayTotals_other s d0 d h, recomputeDayTotals_entries]
    exact h2
  · intro c hc
    rw [dayReplCount, getDay_recomputeDayTotals_other s d0 d h, recomputeDayTotals_entries]
    exact h3 c hc

lemma getDay_recomputeWeek (s : AppDB) (w : WeekId) (d : Date) :
    getDay ((recomputeWeek s w).1) d = getDay s d := by
  rw [getDay, recomputeWeek_days, getDay]

lemma DayConsistent_recomputeWeek (s : AppDB) (w : WeekId) (d : Date)
    (hdc : DayConsistent s d) : DayConsistent ((recomputeWeek s w).1) d := by
  obtain ⟨h1, h2, h3⟩ := hdc
  refine ⟨?_, ?_, ?_⟩
  · rw [getDay_recomputeWeek]
    exact h1
  · rw [dayTotal, getDay_recomputeWeek, recomputeWeek_entries]
    exact h2
  · intro c hc
    rw [dayReplCount, getDay_recomputeWeek, recomputeWeek_entries]
    exact h3 c hc

lemma dayTotal_recomputeWeek (s : AppDB) (w : WeekId) (d : Date) :
    dayTotal ((recomputeWeek s w).1) d = dayTotal s d := by
  rw [dayTotal, getDay_recomputeWeek, dayTotal]

lemma recomputeWeek_totalMinutes (s : AppDB) (w : WeekId) :
    ((recomputeWeek s w).2).totalMinutes
      = sumRange s.entries (parseWeekId w).1 (parseWeekId w).2 := by
  show (listEntriesInRange s (parseWeekId w).1 (parseWeekId w).2).foldl
      (fun sum e => sum + e.minutes) 0 = _
  rw [foldl_add_minutes, zero_add, sumRange]
  exact ((listEntriesInRange_perm s (parseWeekId w).1 (parseWeekId w).2).map
    (fun e => e.minutes)).sum_eq

lemma getWeek_recomputeDayTotals (s : AppDB) (d : Date) (w : WeekId) :
    getWeek (recomputeDayTotals s d) w = getWeek s w := by
  rw [getWeek, recomputeDayTotals_weeks, getWeek]

lemma dayTotal_recomputeDayTotals_other (s : AppDB) (d0 d : Date) (h : d ≠ d0) :
    dayTotal (recomputeDayTotals s d0) d = dayTotal s d := by
  rw [dayTotal, getDay_recomputeDayTotals_other s d0 d h, dayTotal]

/-! ## The recompute-day-and-week step and its folds -/

@[simp] lemma recomputeDayAndWeek_entries (s : AppDB) (d : Date) :
    (recomputeDayAndWeek s d).entries = s.entries := by
  rw [recomputeDayAndWeek, recomputeWeek_entries, recomputeDayTotals_entries]

@[simp] lemma recomputeDayAndWeek_settings (s : AppDB) (d : Date) :
    (recomputeDayAndWeek s d).settings = (getSettings (recomputeDayTotals s d)).1.settings :=
  rfl

@[simp] lemma recomputeDayAndWeek_nextId (s : AppDB) (d : Date) :
    (recomputeDayAndWeek s d).nextId = s.nextId := by
  rw [recomputeDayAndWeek, recomputeWeek_nextId, recomputeDayTotals_nextId]

lemma dayChecklist_recomputeWeek (s : AppDB) (w : WeekId) (d : Date) :
    dayChecklist ((recomputeWeek s w).1) d = dayChecklist s d := by
  rw [dayChecklist, getDay_recomputeWeek, dayChecklist]

lemma dayReflections_recomputeWeek (s : AppDB) (w : WeekId) (d : Date) :
    dayReflections ((recomputeWeek s w).1) d = dayReflections s d := by
  rw [dayReflections, getDay_recomputeWeek, dayReflections]

lemma dayChecklist_recomputeDayAndWeek (s : AppDB) (d0 d : Date) :
    dayChecklist (recomputeDayAndWeek s d0) d = dayChecklist s d := by
  rw [recomputeDayAndWeek, dayChecklist_recomputeWeek, dayChecklist_recomputeDayTotals]

lemma dayReflections_recomputeDayAndWeek (s : AppDB) (d0 d : Date) :
    dayReflections (recomputeDayAndWeek s d0) d = dayReflections s d := by
  rw [recomputeDayAndWeek, dayReflections_recomputeWeek, dayReflections_recomputeDayTotals]

lemma DayConsistent_recomputeDayAndWeek_self (s : AppDB) (d : Date) :
    DayConsistent (recomputeDayAndWeek s d) d :=
  DayConsistent_recomputeWeek _ _ _ (DayConsistent_recomputeDayTotals_self s d)

lemma DayConsistent_recomputeDayAndWeek_other (s : AppDB) (d0 d : Date) (h : d ≠ d0)
    (hdc : DayConsistent s d) : DayConsistent (recomputeDayAndWeek s d0) d :=
  DayConsistent_recomputeWeek _ _ _ (DayConsistent_recomputeDayTotals_other s d0 d h hdc)

lemma dayTotal_recomputeDayAndWeek_self (s : AppDB) (d : Date) :
    dayTotal (recomputeDayAndWeek s d) d = sumDay s.entries d := by
  rw [recomputeDayAndWeek, dayTotal_recomputeWeek, dayTotal_recomputeDayTotals]

lemma dayTotal_recomputeDayAndWeek_other (s : AppDB) (d0 d : Date) (h : d ≠ d0) :
    dayTotal (recomputeDayAndWeek s d0) d = dayTotal s d := by
  rw [recomputeDayAndWeek, dayTotal_recomputeWeek, dayTotal_recomputeDayTotals_other s d0 d h]

lemma foldl_recomputeDayAndWeek_entries (ds : List Date) (s : AppDB) :
    (ds.foldl recomputeDayAndWeek s).entries = s.entries := by
  induction ds generalizing s with
  | nil => rfl
  | cons d t ih => rw [List.foldl_cons, ih, recomputeDayAndWeek_entries]

lemma foldl_recomputeDayAndWeek_dayChecklist (ds : List Date) (s : AppDB) (d : Date) :
    dayChecklist (ds.foldl recomputeDayAndWeek s) d = dayChecklist s d := by
  induction ds generalizing s with
  | nil => rfl
  | cons d0 t ih => rw [List.foldl_cons, ih, dayChecklist_recomputeDayAndWeek]

lemma foldl_recomputeDayAndWeek_dayReflections (ds : List Date) (s : AppDB) (d : Date) :
    dayReflections (ds.foldl recomputeDayAndWeek s) d = dayReflections s d := by
  induction ds generalizing s with
  | nil => rfl
  | cons d0 t ih => rw [List.foldl_cons, ih, dayReflections_recomputeDayAndWeek]

/-- `recomputeWeek` stores the minutes fold as `totalMinutes`. -/
lemma recomputeWeek_totalMinutes_fold (s : AppDB) (w : WeekId) :
    ((recomputeWeek s w).2).totalMinutes
      = (listEntriesInRange s (parseWeekId w).1 (parseWeekId w).2).foldl
          (fun sum e => sum + e.minutes) 0 := rfl

/-- `recomputeWeek` stores the category fold as `categoriesBreakdown`. -/
lemma recomputeWeek_categoriesBreakdown (s : AppDB) (w : WeekId) :
    ((recomputeWeek s w).2).categoriesBreakdown
      = (listEntriesInRange s (parseWeekId w).1 (parseWeekId w).2).foldl
          (fun acc e => bump e.category e.minutes acc) [] := rfl

/-! ## Claim theorems -/

/-- C3: the week round-trip law FAILS on the code.  For the valid date
2025-12-29 (a Monday in ISO week 1 of 2026), `getWeekIdFromDate` produces
the id `2025-W01` (calendar year paired with ISO week number), and
`parseWeekId` maps that id to the range 2024-12-30 .. 2025-01-05, which
does not contain the date: the claimed containment
`startDate <= d <= endDate` is violated. -/
theorem week_roundtrip_violated_at_2025_12_29 :
    getWeekIdFromDate ⟨2025, 12, 29⟩ = ⟨2025, 1⟩ ∧
    parseWeekId ⟨2025, 1⟩ = (⟨2024, 12, 30⟩, ⟨2025, 1, 5⟩) ∧
    dateLe (parseWeekId (getWeekIdFromDate ⟨2025, 12, 29⟩)).1 ⟨2025, 12, 29⟩ = true ∧
    dateLe ⟨2025, 12, 29⟩ (parseWeekId (getWeekIdFromDate ⟨2025, 12, 29⟩)).2 = false :=
  ⟨rfl, rfl, rfl, rfl⟩

/-- C4: `addEntry` performs NO validation of `minutes`.  Adding an entry
with `minutes = -5` to a fresh store succeeds (returns `ok`), stores the
row, and propagates the negative value into the day total — no validation
error is signalled and the write is not prevented. -/
theorem addEntry_stores_nonpositive_minutes :
    (addEntry wS0 negData).map
        (fun r => (r.1.entries.map (fun e => e.minutes), dayTotal r.1 ⟨2025, 1, 6⟩))
      = .ok ([-5], -5) := rfl

/-- C9: `deleteEntry` with an id absent from the entry table returns the
state entirely unchanged (entries, day logs, week summaries, settings all
as before) and signals no error; doing it twice is likewise the identity. -/
theorem deleteEntry_missing_id_is_noop :
    ∀ (s : AppDB) (id : Nat),
      s.entries.find? (fun e => e.id = id) = none →
      deleteEntry s id = s ∧ deleteEntry (deleteEntry s id) id = s := by
  intro s id h
  have h1 : deleteEntry s id = s := by
    unfold deleteEntry
    rw [h]
  exact ⟨h1, by rw [h1, h1]⟩

/-- Witness for C9: deleting the absent id 99 from a one-entry store twice
is the identity. -/
theorem deleteEntry_missing_id_is_noop_witness :
    deleteEntry wS1 99 = wS1 ∧ deleteEntry (deleteEntry wS1 99) 99 = wS1 :=
  deleteEntry_missing_id_is_noop wS1 99 rfl

/-- C10: every `WeekSummary` written by `recomputeWeek` is internally
consistent: its `totalMinutes` equals the sum of the values of its
`categoriesBreakdown`, since each scanned entry adds its minutes to
exactly one category bucket and to the week total. -/
theorem recomputeWeek_breakdown_sums_to_total :
    ∀ (s : AppDB) (w : WeekId),
      sumVals (((recomputeWeek s w).2).categoriesBreakdown)
        = ((recomputeWeek s w).2).totalMinutes := by
  intro s w
  rw [recomputeWeek_categoriesBreakdown, recomputeWeek_totalMinutes_fold,
    sumVals_catFold, foldl_add_minutes]
  simp [sumVals]

/-- C7: the entry mutations (`addEntry`, successful `updateEntry`,
`deleteEntry`) leave every day's checklist marks and reflections text
exactly as before (the recompute reads the existing row and carries them
over), and conversely the store's `updateDayChecklist` — when its cached
`currentDay` is the stored row for that day — leaves `totalFastMinutes`
and `replacementUsage` untouched. -/
theorem recompute_preserves_checklist_toggle_preserves_totals :
    (∀ (s : AppDB) (data : NewEntryData) (s' : AppDB) (e : ActivityEntry),
        addEntry s data = .ok (s', e) →
        ∀ d, dayChecklist s' d = dayChecklist s d ∧
          dayReflections s' d = dayReflections s d) ∧
    (∀ (s : AppDB) (id : Nat) (patch : EntryPatch) (s' : AppDB),
        updateEntry s id patch = .ok s' →
        ∀ d, dayChecklist s' d = dayChecklist s d ∧
          dayReflections s' d = dayReflections s d) ∧
    (∀ (s : AppDB) (id : Nat) (d : Date),
        dayChecklist (deleteEntry s id) d = dayChecklist s d ∧
        dayReflections (deleteEntry s id) d = dayReflections s d) ∧
    (∀ (s : AppDB) (dl : DayLog) (dayId : Date) (itemId : String) (checked : Bool),
        getDay s dayId = some dl →
        dayTotal (updateDayChecklist s (some dl) dayId itemId checked).1 dayId
          = dayTotal s dayId ∧
        ∀ c, dayReplCount (updateDayChecklist s (some dl) dayId itemId checked).1 dayId c
          = dayReplCount s dayId c) := by
  refine ⟨?_, ?_, ?_, ?_⟩
  · intro s data s' e h d
    simp only [addEntry] at h
    split at h
    · simp at h
    · simp only [Except.ok.injEq, Prod.mk.injEq] at h
      obtain ⟨h1, _⟩ := h
      subst h1
      exact ⟨dayChecklist_recomputeDayAndWeek _ _ _,
        dayReflections_recomputeDayAndWeek _ _ _⟩
  · intro s id patch s' h d
    cases hf : s.entries.find? (fun x => x.id = id) with
    | none =>
        simp only [updateEntry, hf] at h
        exact (Except.noConfusion h)
    | some ex =>
        simp only [updateEntry, hf, Except.ok.injEq] at h
        subst h
        exact ⟨foldl_recomputeDayAndWeek_dayChecklist _ _ _,
          foldl_recomputeDayAndWeek_dayReflections _ _ _⟩
  · intro s id d
    cases hf : s.entries.find? (fun e => e.id = id) with
    | none =>
        have h1 : deleteEntry s id = s := by
          unfold deleteEntry
          rw [hf]
        rw [h1]
        exact ⟨rfl, rfl⟩
    | some ex =>
        have h1 : deleteEntry s id
            = recomputeDayAndWeek
                { s with entries := s.entries.filter (fun e => e.id ≠ id) } ex.dayId := by
          unfold deleteEntry
          rw [hf]
        rw [h1]
        exact ⟨dayChecklist_recomputeDayAndWeek _ _ _,
          dayReflections_recomputeDayAndWeek _ _ _⟩
  · intro s dl dayId itemId checked h
    have hget : getDay (updateDayChecklist s (some dl) dayId itemId checked).1 dayId
        = some ((updateDayChecklist s (some dl) dayId itemId checked).2) :=
      getDay_upsertDay_self s _
    constructor
    · rw [dayTotal, hget, dayTotal, h]
      rfl
    · intro c
      rw [dayReplCount, hget, dayReplCount, h]
      rfl

/-- Witness for C7: toggling checklist item "i1" on the day that holds the
30-minute entry leaves its stored total and replacement counts unchanged. -/
theorem toggle_preserves_totals_witness :
    dayTotal (updateDayChecklist wS1 (some wDayLog) ⟨2025, 1, 6⟩ "i1" true).1 ⟨2025, 1, 6⟩
      = dayTotal wS1 ⟨2025, 1, 6⟩ ∧
    ∀ c, dayReplCount (updateDayChecklist wS1 (some wDayLog) ⟨2025, 1, 6⟩ "i1" true).1
        ⟨2025, 1, 6⟩ c
      = dayReplCount wS1 ⟨2025, 1, 6⟩ c :=
  recompute_preserves_checklist_toggle_preserves_totals.2.2.2 wS1 wDayLog
    ⟨2025, 1, 6⟩ "i1" true rfl

/-- C1: after every completed entry mutation, each touched day's stored
`DayLog` agrees with the entry table: the row exists, `totalFastMinutes`
is the sum of minutes over that day's rows, and for every (nonempty)
replacement category the stored count is the number of that day's rows
using it.  Touched days are: the added entry's day; the updated entry's
old day together with the patched day when the patch carries one; the
deleted entry's day. -/
theorem mutations_restore_day_totals :
    (∀ (s : AppDB) (data : NewEntryData) (s' : AppDB) (e : ActivityEntry),
        addEntry s data = .ok (s', e) → DayConsistent s' e.dayId) ∧
    (∀ (s : AppDB) (id : Nat) (patch : EntryPatch) (ex : ActivityEntry) (s' : AppDB),
        s.entries.find? (fun x => x.id = id) = some ex →
        updateEntry s id patch = .ok s' →
        DayConsistent s' ex.dayId ∧
        ∀ d, patch.dayId = some d → DayConsistent s' d) ∧
    (∀ (s : AppDB) (id : Nat) (ex : ActivityEntry),
        s.entries.find? (fun e => e.id = id) = some ex →
        DayConsistent (deleteEntry s id) ex.dayId) := by
  refine ⟨?_, ?_, ?_⟩
  · intro s data s' e h
    simp only [addEntry] at h
    split at h
    · simp at h
    · simp only [Except.ok.injEq, Prod.mk.injEq] at h
      obtain ⟨h1, h2⟩ := h
      subst h1
      subst h2
      exact DayConsistent_recomputeDayAndWeek_self _ _
  · intro s id patch ex s' hf h
    simp only [updateEntry, hf, Except.ok.injEq] at h
    subst h
    cases hp : patch.dayId with
    | none =>
        simp only [List.foldl_cons, List.foldl_nil]
        refine ⟨DayConsistent_recomputeDayAndWeek_self _ _, ?_⟩
        intro d hd
        exact (Option.noConfusion hd)
    | some B =>
        by_cases hB : B = ex.dayId
        · subst hB
          simp only [if_neg (show ¬ (ex.dayId ≠ ex.dayId) from fun hh => hh rfl),
            List.foldl_cons, List.foldl_nil]
          refine ⟨DayConsistent_recomputeDayAndWeek_self _ _, ?_⟩
          intro d hd
          simp only [Option.some.injEq] at hd
          subst hd
          exact DayConsistent_recomputeDayAndWeek_self _ _
        · simp only [if_pos (show B ≠ ex.dayId from hB), List.foldl_cons, List.foldl_nil]
          have hAB : ex.dayId ≠ B := fun hh => hB hh.symm
          refine ⟨?_, ?_⟩
          · exact DayConsistent_recomputeDayAndWeek_other _ _ _ hAB
              (DayConsistent_recomputeDayAndWeek_self _ _)
          · intro d hd
            simp only [Option.some.injEq] at hd
            subst hd
            exact DayConsistent_recomputeDayAndWeek_self _ _
  · intro s id ex hf
    have h1 : deleteEntry s id
        = recomputeDayAndWeek
            { s with entries := s.entries.filter (fun e => e.id ≠ id) } ex.dayId := by
      unfold deleteEntry
      rw [hf]
    rw [h1]
    exact DayConsistent_recomputeDayAndWeek_self _ _

/-- Witness for C1: after adding the 30-minute entry to the fresh store,
the stored day log of 2025-01-06 agrees with the entry table. -/
theorem mutations_restore_day_totals_witness :
    DayConsistent wS1 ⟨2025, 1, 6⟩ :=
  mutations_restore_day_totals.1 wS0 wData wS1 wE1 rfl

/-- C8 (amended): for every existing entry and every patch that does NOT
carry an `id` field, `updateEntry` keeps the entry table's id set
unchanged and stores the shallow merge of the old fields with the patch
at that id.  (A patch carrying a different `id` instead duplicates the
row, see the counterexample.) -/
theorem updateEntry_without_id_patch_preserves_ids :
    ∀ (s : AppDB) (id : Nat) (patch : EntryPatch) (e : ActivityEntry) (s' : AppDB),
      s.entries.find? (fun x => x.id = id) = some e →
      patch.id = none →
      updateEntry s id patch = .ok s' →
      (∀ j, j ∈ s'.entries.map (fun x => x.id) ↔ j ∈ s.entries.map (fun x => x.id)) ∧
      s'.entries.find? (fun x => x.id = id) = some (applyPatch e patch) := by
  intro s id patch e s' hf hpid h
  simp only [updateEntry, hf, Except.ok.injEq] at h
  subst h
  have hid : e.id = id := by simpa using List.find?_some hf
  have hupd : (applyPatch e patch).id = id := by
    simp [applyPatch, hpid, hid]
  constructor
  · intro j
    rw [foldl_recomputeDayAndWeek_entries]
    simp only [putEntryRow]
    rw [hupd]
    constructor
    · intro hj
      rcases List.mem_map.mp hj with ⟨x, hx, hxid⟩
      rcases List.mem_cons.mp hx with h1 | h2
      · subst h1
        refine List.mem_map.mpr ⟨e, List.mem_of_find?_eq_some hf, ?_⟩
        rw [hid, ← hupd]
        exact hxid
      · exact List.mem_map.mpr ⟨x, List.mem_of_mem_filter h2, hxid⟩
    · intro hj
      rcases List.mem_map.mp hj with ⟨x, hx, hxid⟩
      by_cases hxi : x.id = id
      · refine List.mem_map.mpr ⟨applyPatch e patch, List.mem_cons_self _ _, ?_⟩
        rw [hupd, ← hxi]
        exact hxid
      · refine List.mem_map.mpr
          ⟨x, List.mem_cons_of_mem _ (List.mem_filter.mpr ⟨hx, ?_⟩), hxid⟩
        simpa using hxi
  · rw [foldl_recomputeDayAndWeek_entries]
    simp only [putEntryRow]
    rw [hupd]
    exact List.find?_cons_of_pos _ (by simpa using hupd)

/-- Witness for C8 (amended): patching only the category of the stored
entry keeps the id set `{0}` and stores the merged row at id 0. -/
theorem updateEntry_without_id_patch_preserves_ids_witness :
    (∀ j, j ∈ wS2cat.entries.map (fun x => x.id) ↔ j ∈ wS1.entries.map (fun x => x.id)) ∧
    wS2cat.entries.find? (fun x => x.id = 0) = some (applyPatch wE1 catPatch) :=
  updateEntry_without_id_patch_preserves_ids wS1 0 catPatch wE1 wS2cat rfl rfl rfl

/-- Counterexample to C8 as stated: the patch `{id: 7}` IS accepted by
`updateEntry`, and because `db.entries.put` keys on the merged row's id,
the table afterwards holds ids `[7, 0]` — the old row remains and a new
one appears, so the id set is not preserved for arbitrary patches. -/
theorem updateEntry_id_patch_changes_id_set :
    updateEntry wS1 0 idPatch = .ok wS2id ∧
    wS2id.entries.map (fun x => x.id) = [7, 0] ∧
    wS1.entries.map (fun x => x.id) = [0] ∧
    ¬ (∀ j, j ∈ wS2id.entries.map (fun x => x.id) ↔ j ∈ wS1.entries.map (fun x => x.id)) := by
  refine ⟨rfl, rfl, rfl, ?_⟩
  intro hcontra
  have h7 := (hcontra 7).mp (by decide)
  exact absurd h7 (by decide)

/-- C6: re-importing the same snapshot is NOT idempotent.  `addEntry`
regenerates a fresh id for every imported entry, so the `try/catch` that
is supposed to "skip duplicates by catching insertion conflicts" never
fires: importing the one-entry snapshot twice yields two rows and doubles
the day total. -/
theorem reimport_duplicates_entries :
    importFromJSON wS0 c6Snap = .ok c6Once ∧
    importFromJSON c6Once c6Snap = .ok c6Twice ∧
    c6Once.entries.length = 1 ∧ dayTotal c6Once ⟨2025, 1, 6⟩ = 30 ∧
    c6Twice.entries.length = 2 ∧ dayTotal c6Twice ⟨2025, 1, 6⟩ = 60 ∧
    c6Twice.entries ≠ c6Once.entries :=
  ⟨rfl, rfl, rfl, rfl, rfl, rfl, by decide⟩

/-- C5 (amended): the cap arithmetic of `recomputeWeek`.  `capMinutes` is
the settings cap in absolute mode and
`round(weeklyLeisureMinutes × weeklyAllowanceMinutes / 100)` in
percent-of-leisure mode whenever `weeklyLeisureMinutes` is set to a
NONZERO value (the code's `|| 2800` default also fires on a zero value —
see the counterexample); `capUsagePct` is `totalMinutes/capMinutes×100`
for positive caps and `0` for a zero cap; `overCap` holds exactly when
`capUsagePct > 100`. -/
theorem recomputeWeek_cap_math :
    ∀ (s : AppDB) (w : WeekId) (st : UserSettings),
      s.settings = some st →
      (st.allowanceMode = .absolute →
        ((recomputeWeek s w).2).capMinutes = st.weeklyAllowanceMinutes) ∧
      (∀ v : Int, st.allowanceMode = .percentOfLeisure →
        st.weeklyLeisureMinutes = some v → v ≠ 0 →
        ((recomputeWeek s w).2).capMinutes
          = jsRound ((v : Rat) * (st.weeklyAllowanceMinutes : Rat) / 100)) ∧
      (((recomputeWeek s w).2).capMinutes > 0 →
        ((recomputeWeek s w).2).capUsagePct
          = (((recomputeWeek s w).2).totalMinutes : Rat)
              / (((recomputeWeek s w).2).capMinutes : Rat) * 100) ∧
      (((recomputeWeek s w).2).capMinutes = 0 →
        ((recomputeWeek s w).2).capUsagePct = 0) ∧
      (((recomputeWeek s w).2).overCap = true ↔
        ((recomputeWeek s w).2).capUsagePct > 100) := by
  intro s w st hst
  have hgs : getSettings s = (s, st) := by simp [getSettings, hst]
  refine ⟨?_, ?_, ?_, ?_, ?_⟩
  · intro hm
    simp only [recomputeWeek, hgs, hm]
  · intro v hm hl hv
    simp only [recomputeWeek, hgs, hm, hl, if_neg hv]
    rw [mul_div_assoc]
  · intro hpos
    simp only [recomputeWeek] at hpos ⊢
    rw [if_pos hpos]
  · intro hzero
    simp only [recomputeWeek] at hzero ⊢
    rw [hzero]
    simp
  · simp only [recomputeWeek, decide_eq_true_eq]

/-- Witness for C5 (amended): nonzero percent-of-leisure settings produce
`capMinutes = round(2800 × 10 / 100) = 280`. -/
theorem recomputeWeek_cap_math_witness :
    ((recomputeWeek c5Sgood ⟨2025, 2⟩).2).capMinutes
      = jsRound (((2800 : Int) : Rat) * (((10 : Int) : Rat)) / 100) := by
  have h := recomputeWeek_cap_math c5Sgood ⟨2025, 2⟩ _ rfl
  exact h.2.1 2800 rfl rfl (by decide)

/-- Counterexample to C5 as stated: with `allowanceMode = 'percentOfLeisure'`
and `weeklyLeisureMinutes` SET to `0`, the claim's formula gives
`round(0 × 10 / 100) = 0`, but the code's falsy-default
`settings.weeklyLeisureMinutes || 2800` replaces the zero by 2800 and
yields `capMinutes = 280`. -/
theorem zero_leisure_setting_ignored :
    c5S.settings = some
      { weeklyAllowanceMinutes := 10, allowanceMode := .percentOfLeisure
        weeklyLeisureMinutes := some 0 } ∧
    ((recomputeWeek c5S ⟨2025, 2⟩).2).capMinutes = 280 ∧
    jsRound (((0 : Int) : Rat) * (((10 : Int) : Rat)) / 100) = 0 ∧
    ((recomputeWeek c5S ⟨2025, 2⟩).2).capMinutes
      ≠ jsRound (((0 : Int) : Rat) * (((10 : Int) : Rat)) / 100) := by
  have h2 : ((recomputeWeek c5S ⟨2025, 2⟩).2).capMinutes = 280 := by
    simp only [recomputeWeek, c5S, getSettings, jsRound]
    rw [Int.floor_eq_iff]
    norm_num
  have h3 : jsRound (((0 : Int) : Rat) * (((10 : Int) : Rat)) / 100) = 0 := by
    simp only [jsRound]
    rw [Int.floor_eq_iff]
    norm_num
  refine ⟨rfl, h2, h3, ?_⟩
  rw [h2, h3]
  decide

/-- C2 (amended): moving an entry between days.  For a patch that sets
`dayId` to a different day `B` while leaving `id` and `minutes` alone, in
a table with distinct ids whose stored day totals for both days agree
with the entry table, a successful `updateEntry` decreases day A's stored
total by the entry's minutes, increases day B's by the same amount,
leaves the row stored exactly once (under its id, with `dayId = B`), and
when the code's week ids of A and B differ both stored week summaries are
freshly recomputed from the post-move table (each week's stored
`totalMinutes` equals the sum of minutes over entries in its range). -/
theorem updateEntry_move_updates_both_days :
    ∀ (s : AppDB) (id : Nat) (patch : EntryPatch) (e : ActivityEntry) (B : Date)
      (s' : AppDB),
      uniqueIds s.entries →
      s.entries.find? (fun x => x.id = id) = some e →
      patch.dayId = some B →
      B ≠ e.dayId →
      patch.id = none →
      patch.minutes = none →
      dayTotal s e.dayId = sumDay s.entries e.dayId →
      dayTotal s B = sumDay s.entries B →
      updateEntry s id patch = .ok s' →
      dayTotal s' e.dayId = dayTotal s e.dayId - e.minutes ∧
      dayTotal s' B = dayTotal s B + e.minutes ∧
      s'.entries.filter (fun x => x.id = id) = [applyPatch e patch] ∧
      (getWeekIdFromDate e.dayId ≠ getWeekIdFromDate B →
        (getWeek s' (getWeekIdFromDate e.dayId)).isSome = true ∧
        weekTotal s' (getWeekIdFromDate e.dayId)
          = sumRange s'.entries (parseWeekId (getWeekIdFromDate e.dayId)).1
              (parseWeekId (getWeekIdFromDate e.dayId)).2 ∧
        (getWeek s' (getWeekIdFromDate B)).isSome = true ∧
        weekTotal s' (getWeekIdFromDate B)
          = sumRange s'.entries (parseWeekId (getWeekIdFromDate B)).1
              (parseWeekId (getWeekIdFromDate B)).2) := by
  intro s id patch e B s' hu hf hpd hBA hpid hpm hA hB h
  simp only [updateEntry, hf, hpd, Except.ok.injEq] at h
  rw [if_pos hBA] at h
  simp only [List.foldl_cons, List.foldl_nil] at h
  subst h
  have hid : e.id = id := by simpa using List.find?_some hf
  have hudid : (applyPatch e patch).id = id := by simp [applyPatch, hpid, hid]
  have hudday : (applyPatch e patch).dayId = B := by simp [applyPatch, hpd]
  have hudmin : (applyPatch e patch).minutes = e.minutes := by simp [applyPatch, hpm]
  have hAB : e.dayId ≠ B := fun hh => hBA hh.symm
  have hs1e : putEntryRow s.entries (applyPatch e patch)
      = applyPatch e patch :: s.entries.filter (fun x => x.id ≠ id) := by
    simp only [putEntryRow]
    rw [hudid]
  refine ⟨?_, ?_, ?_, ?_⟩
  · rw [dayTotal_recomputeDayAndWeek_other _ _ _ hAB, dayTotal_recomputeDayAndWeek_self]
    show sumDay (putEntryRow s.entries (applyPatch e patch)) e.dayId = _
    rw [hs1e, sumDay_cons, if_neg (by rw [hudday]; exact hBA), zero_add,
      sumDay_filter_ne s.entries id e hu hf, if_pos rfl, hA]
  · rw [dayTotal_recomputeDayAndWeek_self, recomputeDayAndWeek_entries]
    show sumDay (putEntryRow s.entries (applyPatch e patch)) B = _
    rw [hs1e, sumDay_cons, if_pos hudday, sumDay_filter_ne s.entries id e hu hf,
      if_neg hAB, hB, hudmin]
    ring
  · rw [recomputeDayAndWeek_entries, recomputeDayAndWeek_entries]
    show (putEntryRow s.entries (applyPatch e patch)).filter (fun x => x.id = id) = _
    rw [hs1e, List.filter_cons_of_pos (by simpa using hudid), filter_ne_id_filter_id]
  · intro hw
    have g1 : getWeek
        (recomputeDayAndWeek
          (recomputeDayAndWeek
            { s with entries := putEntryRow s.entries (applyPatch e patch) } e.dayId) B)
        (getWeekIdFromDate e.dayId)
        = some ((recomputeWeek
            (recomputeDayTotals
              { s with entries := putEntryRow s.entries (applyPatch e patch) } e.dayId)
            (getWeekIdFromDate e.dayId)).2) := by
      rw [show recomputeDayAndWeek
            (recomputeDayAndWeek
              { s with entries := putEntryRow s.entries (applyPatch e patch) } e.dayId) B
          = (recomputeWeek
              (recomputeDayTotals
                (recomputeDayAndWeek
                  { s with entries := putEntryRow s.entries (applyPatch e patch) }
                  e.dayId) B)
              (getWeekIdFromDate B)).1 from rfl]
      rw [getWeek_recomputeWeek_other _ _ _ hw, getWeek_recomputeDayTotals]
      rw [show recomputeDayAndWeek
            { s with entries := putEntryRow s.entries (applyPatch e patch) } e.dayId
          = (recomputeWeek
              (recomputeDayTotals
                { s with entries := putEntryRow s.entries (applyPatch e patch) } e.dayId)
              (getWeekIdFromDate e.dayId)).1 from rfl]
      exact getWeek_recomputeWeek_self _ _
    have g2 : getWeek
        (recomputeDayAndWeek
          (recomputeDayAndWeek
            { s with entries := putEntryRow s.entries (applyPatch e patch) } e.dayId) B)
        (getWeekIdFromDate B)
        = some ((recomputeWeek
            (recomputeDayTotals
              (recomputeDayAndWeek
                { s with entries := putEntryRow s.entries (applyPatch e patch) } e.dayId)
              B)
            (getWeekIdFromDate B)).2) := by
      rw [show recomputeDayAndWeek
            (recomputeDayAndWeek
              { s with entries := putEntryRow s.entries (applyPatch e patch) } e.dayId) B
          = (recomputeWeek
              (recomputeDayTotals
                (recomputeDayAndWeek
                  { s with entries := putEntryRow s.entries (applyPatch e patch) }
                  e.dayId) B)
              (getWeekIdFromDate B)).1 from rfl]
      exact getWeek_recomputeWeek_self _ _
    refine ⟨?_, ?_, ?_, ?_⟩
    · rw [g1]
      rfl
    · rw [weekTotal, g1]
      simp only [Option.map_some', Option.getD_some]
      rw [recomputeWeek_totalMinutes, recomputeDayTotals_entries,
        recomputeDayAndWeek_entries, recomputeDayAndWeek_entries]
    · rw [g2]
      rfl
    · rw [weekTotal, g2]
      simp only [Option.map_some', Option.getD_some]
      rw [recomputeWeek_totalMinutes, recomputeDayTotals_entries,
        recomputeDayAndWeek_entries, recomputeDayAndWeek_entries,
        recomputeDayAndWeek_entries]

/-- Counterexample to C2 as stated: the claim quantifies over EVERY patch
that sets `dayId` to a different day.  For the patch
`{dayId: 2025-01-07, minutes: 50}` on the stored 30-minute entry, the
target day's total afterwards is 50 — the patched minutes — not the
required `0 + 30`: day B does not increase by e's (old) minutes. -/
theorem minutes_patch_breaks_plain_move_claim :
    updateEntry wS1 0 movePatchBad = .ok wS2bad ∧
    (wS1.entries.find? (fun x => x.id = 0)).map (fun e => (e.dayId, e.minutes))
      = some (⟨2025, 1, 6⟩, 30) ∧
    movePatchBad.dayId = some ⟨2025, 1, 7⟩ ∧
    dayTotal wS1 ⟨2025, 1, 7⟩ = 0 ∧
    dayTotal wS2bad ⟨2025, 1, 7⟩ = 50 ∧
    dayTotal wS2bad ⟨2025, 1, 7⟩ ≠ dayTotal wS1 ⟨2025, 1, 7⟩ + 30 :=
  ⟨rfl, rfl, rfl, rfl, rfl, by decide⟩

/-- Witness for C2 (amended): moving the 30-minute entry from Monday
2025-01-06 (week 2025-W02) to Tuesday 2025-01-14 (week 2025-W03)
decreases the old day by 30, increases the new day by 30, keeps the row
stored once, and recomputes both weeks' stored totals from the post-move
table. -/
theorem updateEntry_move_updates_both_days_witness :
    dayTotal wS2 ⟨2025, 1, 6⟩ = dayTotal wS1 ⟨2025, 1, 6⟩ - 30 ∧
    dayTotal wS2 ⟨2025, 1, 14⟩ = dayTotal wS1 ⟨2025, 1, 14⟩ + 30 ∧
    wS2.entries.filter (fun x => x.id = 0) = [applyPatch wE1 movePatch] ∧
    (getWeekIdFromDate ⟨2025, 1, 6⟩ ≠ getWeekIdFromDate ⟨2025, 1, 14⟩ →
      (getWeek wS2 (getWeekIdFromDate ⟨2025, 1, 6⟩)).isSome = true ∧
      weekTotal wS2 (getWeekIdFromDate ⟨2025, 1, 6⟩)
        = sumRange wS2.entries (parseWeekId (getWeekIdFromDate ⟨2025, 1, 6⟩)).1
            (parseWeekId (getWeekIdFromDate ⟨2025, 1, 6⟩)).2 ∧
      (getWeek wS2 (getWeekIdFromDate ⟨2025, 1, 14⟩)).isSome = true ∧
      weekTotal wS2 (getWeekIdFromDate ⟨2025, 1, 14⟩)
        = sumRange wS2.entries (parseWeekId (getWeekIdFromDate ⟨2025, 1, 14⟩)).1
            (parseWeekId (getWeekIdFromDate ⟨2025, 1, 14⟩)).2) :=
  updateEntry_move_updates_both_days wS1 0 movePatch wE1 ⟨2025, 1, 14⟩ wS2
    (show (wS1.entries.map (fun e => e.id)).Nodup by decide) rfl rfl (by decide)
    rfl rfl (by decide) (by decide) rfl

end DopamineDetox
